import Mathlib

set_option linter.unusedVariables false

/-!
Verification of the rmtlend Stylus contracts (LendingPool, LoanManager,
OracleVerifier) against their natural-language specification.

The three contracts are shallowly embedded: every `U256`/`U32`/`U8` storage
slot becomes a `ℕ`, with 256-bit wrapping arithmetic made explicit through
`wadd`/`wsub`/`wmul` (alloy `U256` operators wrap in release builds, which is
how Stylus contracts are deployed) and `satAdd` for `saturating_add`.
Solidity mappings become association lists with first-match lookup and an
erase-then-cons store, which reproduces mapping semantics exactly.  External
collaborators (the ERC20 token, the remittance-NFT registry, cross-contract
calls) are modelled by boolean parameters giving the outcome of each external
call; a `?`-propagated failure surfaces as `Except.error`, and an error result
models a reverted call that leaves storage unchanged.  String-typed storage
(verification request provider / account id) is modelled by opaque numeric
identifiers, since the contracts only store and overwrite these values.
-/

/-! ## Machine arithmetic -/

def M256 : ℕ := 2 ^ 256

def M32 : ℕ := 2 ^ 32

/-- Wrapping 256-bit addition (alloy `U256` `+` in release builds). -/
def wadd (a b : ℕ) : ℕ := (a + b) % M256

/-- Wrapping 256-bit subtraction (alloy `U256` `-` in release builds). -/
def wsub (a b : ℕ) : ℕ := (a + (M256 - b % M256)) % M256

/-- Wrapping 256-bit multiplication (alloy `U256` `*` in release builds). -/
def wmul (a b : ℕ) : ℕ := (a * b) % M256

/-- `U256::saturating_add`. -/
def satAdd (a b : ℕ) : ℕ := min (a + b) (M256 - 1)

/-! ## Association-list model of Solidity mappings -/

/-- First-match lookup with a default value (mapping read; absent keys give
the zero value, as in Solidity storage). -/
def lookupD {α : Type} (l : List (ℕ × α)) (k : ℕ) (d : α) : α :=
  match l with
  | [] => d
  | p :: t => if p.1 = k then p.2 else lookupD t k d

/-- Remove every binding of key `k`. -/
def eraseK {α : Type} (l : List (ℕ × α)) (k : ℕ) : List (ℕ × α) :=
  match l with
  | [] => []
  | p :: t => if p.1 = k then eraseK t k else p :: eraseK t k

/-- Mapping write: bind `k` to `v`, dropping any previous binding. -/
def insertK {α : Type} (l : List (ℕ × α)) (k : ℕ) (v : α) : List (ℕ × α) :=
  (k, v) :: eraseK l k

/-- The keys of an association list are pairwise distinct. -/
def keysND {α : Type} (l : List (ℕ × α)) : Prop :=
  (l.map Prod.fst).Nodup

/-! ## LendingPool (src/lending_pool/src/lib.rs) -/

/-- Storage struct `LenderInfo`. -/
structure LenderInfo where
  deposit_amount : ℕ
  deposit_timestamp : ℕ
  earned_interest : ℕ
  share_percentage : ℕ
  last_acc_interest_per_share : ℕ
  deriving Repr, DecidableEq

def LenderInfo.zero : LenderInfo :=
  { deposit_amount := 0, deposit_timestamp := 0, earned_interest := 0,
    share_percentage := 0, last_acc_interest_per_share := 0 }

/-- Storage of the `LendingPool` entrypoint struct.  Addresses are opaque
numeric identifiers. -/
structure PoolState where
  loan_manager : ℕ
  usdc_token : ℕ
  base_interest_rate : ℕ
  max_utilization : ℕ
  total_liquidity : ℕ
  total_borrowed : ℕ
  total_interest_earned : ℕ
  accumulated_interest_per_share : ℕ
  lenders : List (ℕ × LenderInfo)
  deriving Repr, DecidableEq

/-- Sum of `deposit_amount` over all lender entries. -/
def sumDep (l : List (ℕ × LenderInfo)) : ℕ :=
  match l with
  | [] => 0
  | p :: t => p.2.deposit_amount + sumDep t

namespace LendingPool

/-- `initialize` (constructor): the post-deployment state.  `max_utilization`
is set to 9000 (90%). -/
def initPool (lm tok rate : ℕ) : PoolState :=
  { loan_manager := lm, usdc_token := tok, base_interest_rate := rate,
    max_utilization := 9000, total_liquidity := 0, total_borrowed := 0,
    total_interest_earned := 0, accumulated_interest_per_share := 0,
    lenders := [] }

inductive PoolErr where
  | invalidAmount
  | insufficientBalance
  | insufficientPoolLiquidity
  | notLoanManager
  | insufficientLiquidity
  | u32Overflow
  deriving Repr, DecidableEq

/-- Private helper `update_interest`: returns the settled `pending` value and
the state after checkpointing the lender.  Note that when `deposit_amount` is
zero the code leaves `pending = 0` and still writes it into
`earned_interest`. -/
def update_interest (s : PoolState) (a : ℕ) : ℕ × PoolState :=
  let l := lookupD s.lenders a LenderInfo.zero
  let pending :=
    if 0 < l.deposit_amount then
      wadd l.earned_interest
        (wmul l.deposit_amount
          (wsub s.accumulated_interest_per_share l.last_acc_interest_per_share) /
          1000000000)
    else 0
  let lNew := { l with
    last_acc_interest_per_share := s.accumulated_interest_per_share,
    earned_interest := pending }
  (pending, { s with lenders := insertK s.lenders a lNew })

/-- `deposit(amount)`.  `tOk` is the outcome of the external
`transferFrom` call; the source discards it (`let _ = ...`), so it cannot
influence the result.  The `U32::from(new_share)` conversion panics (reverting
the call) when the share does not fit in 32 bits, which the `M32` guard
models. -/
def deposit (s : PoolState) (sender amount now : ℕ) (tOk : Bool) :
    Except PoolErr PoolState :=
  if amount = 0 then Except.error PoolErr.invalidAmount else
  let pending := (update_interest s sender).1
  let s1 := (update_interest s sender).2
  let l := lookupD s1.lenders sender LenderInfo.zero
  let new_deposit := satAdd l.deposit_amount amount
  let accrued := if l.deposit_amount = 0 ∧ 0 < pending then pending else 0
  let new_total_liq := satAdd s1.total_liquidity amount
  let new_share :=
    if 0 < new_total_liq then wmul new_deposit 10000 / new_total_liq else 10000
  let lNew := { l with
    earned_interest := accrued, share_percentage := new_share,
    deposit_amount := new_deposit, deposit_timestamp := now }
  if new_share < M32 then
    Except.ok { s1 with total_liquidity := new_total_liq,
                        lenders := insertK s1.lenders sender lNew }
  else Except.error PoolErr.u32Overflow

/-- `withdraw(amount)`: returns the new state together with the amount passed
to the external token `transfer` (`amount + pending`).  `tOk` is the outcome
of that transfer, discarded by the source. -/
def withdraw (s : PoolState) (sender amount : ℕ) (tOk : Bool) :
    Except PoolErr (PoolState × ℕ) :=
  if amount = 0 then Except.error PoolErr.invalidAmount else
  let l0 := lookupD s.lenders sender LenderInfo.zero
  if l0.deposit_amount < amount then Except.error PoolErr.insufficientBalance else
  if s.total_liquidity - s.total_borrowed < amount then
    Except.error PoolErr.insufficientPoolLiquidity else
  let pending := (update_interest s sender).1
  let s1 := (update_interest s sender).2
  let new_deposit := l0.deposit_amount - amount
  let new_total_liq := s.total_liquidity - amount
  let l1 := lookupD s1.lenders sender LenderInfo.zero
  let new_share :=
    if 0 < new_total_liq then wmul new_deposit 10000 / new_total_liq else 0
  let lNew := { l1 with
    deposit_amount := new_deposit, share_percentage := new_share }
  if new_share < M32 then
    Except.ok ({ s1 with total_liquidity := new_total_liq,
                         lenders := insertK s1.lenders sender lNew },
               satAdd amount pending)
  else Except.error PoolErr.u32Overflow

/-- `borrow(amount, borrower)`: LoanManager-only.  The `assert!` failures
abort (revert) the call; the external token `transfer` outcome `tOk` is
discarded by the source (its success `assert!` is commented out). -/
def borrow (s : PoolState) (caller amount borrower : ℕ) (tOk : Bool) :
    Except PoolErr PoolState :=
  if caller = s.loan_manager then
    if amount = 0 then Except.error PoolErr.invalidAmount else
    if s.total_liquidity < wadd s.total_borrowed amount then
      Except.error PoolErr.insufficientLiquidity
    else Except.ok { s with total_borrowed := wadd s.total_borrowed amount }
  else Except.error PoolErr.notLoanManager

/-- `repay(principal, interest)`: LoanManager-only.  `total_borrowed -=
principal` is a wrapping 256-bit subtraction with no underflow check. -/
def repay (s : PoolState) (caller principal interest : ℕ) :
    Except PoolErr PoolState :=
  if caller = s.loan_manager then
    if 0 < interest ∧ 0 < s.total_liquidity then
      Except.ok { s with
        total_borrowed := wsub s.total_borrowed principal,
        total_interest_earned := wadd s.total_interest_earned interest,
        accumulated_interest_per_share :=
          wadd s.accumulated_interest_per_share
            (wmul interest 1000000000 / s.total_liquidity) }
    else
      Except.ok { s with
        total_borrowed := wsub s.total_borrowed principal,
        total_interest_earned := wadd s.total_interest_earned interest }
  else Except.error PoolErr.notLoanManager

/-- The lender entry written by `update_interest`. -/
def uiLender (s : PoolState) (a : ℕ) : LenderInfo :=
  { lookupD s.lenders a LenderInfo.zero with
    last_acc_interest_per_share := s.accumulated_interest_per_share,
    earned_interest := (update_interest s a).1 }

end LendingPool

/-! ## LoanManager (src/loan_manager/src/lib.rs) -/

namespace LoanManager

/-- Storage struct `Loan`.  `status`: 0 = Pending, 1 = Active, 2 = Repaid,
3 = Defaulted. -/
structure Loan where
  loan_id : ℕ
  borrower : ℕ
  nft_collateral_id : ℕ
  loan_amount : ℕ
  outstanding_balance : ℕ
  total_repaid : ℕ
  interest_rate_bps : ℕ
  duration_months : ℕ
  monthly_payment : ℕ
  start_timestamp : ℕ
  next_payment_due : ℕ
  status : ℕ
  payments_made : ℕ
  payments_missed : ℕ
  deriving Repr, DecidableEq

def Loan.zero : Loan :=
  { loan_id := 0, borrower := 0, nft_collateral_id := 0, loan_amount := 0,
    outstanding_balance := 0, total_repaid := 0, interest_rate_bps := 0,
    duration_months := 0, monthly_payment := 0, start_timestamp := 0,
    next_payment_due := 0, status := 0, payments_made := 0,
    payments_missed := 0 }

/-- Storage of the `LoanManager` entrypoint struct.  The `borrower_loans`
mapping is declared in the source but never read or written (the writes are
commented out), so it is omitted. -/
structure LMState where
  admin : ℕ
  oracle : ℕ
  remittance_nft : ℕ
  lending_pool : ℕ
  usdc : ℕ
  loan_counter : ℕ
  loans : List (ℕ × Loan)
  deriving Repr, DecidableEq

inductive LoanErr where
  | onlyAdmin
  | loanNotPending
  | loanNotActive
  | onlyBorrower
  | onlyOracle
  | amountZero
  | stakeFailed
  | borrowFailed
  | transferFailed
  | repayFailed
  | unstakeFailed
  deriving Repr, DecidableEq

/-- `_calculate_interest_rate`: step function of `score mod 100`. -/
def calculate_interest_rate (score : ℕ) : ℕ :=
  let s := score % 100
  if 90 ≤ s then 1500
  else if 80 ≤ s then 2000
  else if 70 ≤ s then 3000
  else 4000

/-- `_calculate_monthly_payment`: flat amortization with truncating
division. -/
def calculate_monthly_payment (principal rate_bps months : ℕ) : ℕ :=
  let total_interest := wmul (wmul principal rate_bps) months / 120000
  let total := wadd principal total_interest
  if months = 0 then total else total / months

/-- `_calculate_interest_portion`: `monthly_rate = rate_bps / 12` (truncating
`U32` division), then `outstanding * monthly_rate / 10000` in `U256`. -/
def calculate_interest_portion (outstanding rate_bps : ℕ) : ℕ :=
  wmul outstanding (rate_bps / 12) / 10000

/-- `approve_loan(loan_id)`: admin-only, requires `Pending`; `stakeOk` and
`borrowOk` are the outcomes of the external `stakeNFT` and
`LiquidityPool.borrow` calls, both propagated with `?`. -/
def approve_loan (s : LMState) (sender loan_id : ℕ) (stakeOk borrowOk : Bool) :
    Except LoanErr LMState :=
  if sender ≠ s.admin then Except.error LoanErr.onlyAdmin else
  let loan := lookupD s.loans loan_id Loan.zero
  if loan.status ≠ 0 then Except.error LoanErr.loanNotPending else
  if stakeOk = false then Except.error LoanErr.stakeFailed else
  if borrowOk = false then Except.error LoanErr.borrowFailed else
  Except.ok { s with loans := insertK s.loans loan_id { loan with status := 1 } }

/-- `_process_payment(loan_id, payer, amount)`.  `transferOk`, `repayOk`,
`unstakeOk` are the outcomes of the external ERC20 `transferFrom`, the
`LiquidityPool.repay` call and (on full payoff) the `unstakeNFT` call, all
propagated with `?`.  Note that `total_repaid`, `payments_made` and
`next_payment_due` are written back with their previous values. -/
def process_payment (s : LMState) (loan_id payer amount : ℕ)
    (transferOk repayOk unstakeOk : Bool) : Except LoanErr LMState :=
  if amount = 0 then Except.error LoanErr.amountZero else
  let loan := lookupD s.loans loan_id Loan.zero
  let outstanding := loan.outstanding_balance
  let interest_portion := calculate_interest_portion outstanding loan.interest_rate_bps
  if loan.status ≠ 1 then Except.error LoanErr.loanNotActive else
  let principal_portion :=
    if interest_portion < amount then amount - interest_portion else 0
  if transferOk = false then Except.error LoanErr.transferFailed else
  if repayOk = false then Except.error LoanErr.repayFailed else
  let loanPaidOff := { loan with outstanding_balance := 0, status := 2 }
  let loanPartial :=
    { loan with outstanding_balance := outstanding - principal_portion }
  if outstanding ≤ principal_portion then
    if unstakeOk = false then Except.error LoanErr.unstakeFailed else
    Except.ok { s with loans := insertK s.loans loan_id loanPaidOff }
  else
    Except.ok { s with loans := insertK s.loans loan_id loanPartial }

/-- `make_payment(loan_id, amount)`: borrower-only, requires `Active`. -/
def make_payment (s : LMState) (sender loan_id amount : ℕ)
    (transferOk repayOk unstakeOk : Bool) : Except LoanErr LMState :=
  let loan := lookupD s.loans loan_id Loan.zero
  if loan.status ≠ 1 then Except.error LoanErr.loanNotActive else
  if sender ≠ loan.borrower then Except.error LoanErr.onlyBorrower else
  process_payment s loan_id sender amount transferOk repayOk unstakeOk

/-- `process_auto_repayment(loan_id, remittance_amount)`: oracle-only; caps
the applied amount at `monthly_payment` and returns the leftover. -/
def process_auto_repayment (s : LMState) (sender loan_id remittance_amount : ℕ)
    (transferOk repayOk unstakeOk : Bool) : Except LoanErr (LMState × ℕ) :=
  if sender ≠ s.oracle then Except.error LoanErr.onlyOracle else
  let loan := lookupD s.loans loan_id Loan.zero
  let payment_amount :=
    if loan.monthly_payment ≤ remittance_amount then loan.monthly_payment
    else remittance_amount
  match process_payment s loan_id loan.borrower payment_amount
      transferOk repayOk unstakeOk with
  | Except.error e => Except.error e
  | Except.ok s1 => Except.ok (s1, remittance_amount - payment_amount)

/-- `mark_payment_missed(loan_id)`: oracle-only; increments `payments_missed`
(`u32` saturating add) and flips to Defaulted at 2 — with no check of the
current status. -/
def mark_payment_missed (s : LMState) (sender loan_id : ℕ) :
    Except LoanErr LMState :=
  if sender ≠ s.oracle then Except.error LoanErr.onlyOracle else
  let loan := lookupD s.loans loan_id Loan.zero
  let missed := min (loan.payments_missed + 1) (M32 - 1)
  let loan1 :=
    if 2 ≤ missed then { loan with payments_missed := missed, status := 3 }
    else { loan with payments_missed := missed }
  Except.ok { s with loans := insertK s.loans loan_id loan1 }

end LoanManager

/-! ## OracleVerifier (src/oracle_verifier/src/lib.rs) -/

namespace OracleVerifier

/-- Storage struct `VerificationRequest`.  `status`: 0 = Pending,
1 = Verified, 2 = Failed.  `provider` and `account_id` are opaque string
identifiers, modelled as numbers. -/
structure VerificationRequest where
  user : ℕ
  provider : ℕ
  account_id : ℕ
  request_timestamp : ℕ
  status : ℕ
  deriving Repr, DecidableEq

def VerificationRequest.zero : VerificationRequest :=
  { user := 0, provider := 0, account_id := 0, request_timestamp := 0,
    status := 0 }

/-- Storage of the `OracleVerifier` entrypoint struct.  The source declares
no operator set: the `oracle_operators` array is commented out. -/
structure OVState where
  admin : ℕ
  remittance_nft : ℕ
  loan_manager : ℕ
  verification_requests : List (ℕ × VerificationRequest)
  monitored_loans : List (ℕ × Bool)
  deriving Repr, DecidableEq

inductive OvErr where
  | alreadyProcessed
  | onlyLoanManager
  | loanNotMonitored
  | mintFailed
  | updateFailed
  | autoRepayFailed
  | markFailed
  deriving Repr, DecidableEq

/-- `_calculate_reliability_score`: `paid*100/total` in `u32` arithmetic,
100 when `total = 0`. -/
def calculate_reliability_score (paid total : ℕ) : ℕ :=
  if total = 0 then 100 else (paid * 100) % M32 / total

/-- `set_addresses`: the admin check is commented out in the source, so the
call never fails and overwrites both addresses for any `sender`. -/
def set_addresses (s : OVState) (sender remittance_nft loan_manager : ℕ) :
    Except OvErr OVState :=
  Except.ok { s with remittance_nft := remittance_nft,
                     loan_manager := loan_manager }

/-- `request_verification`: unconditionally (re)writes a fresh Pending
request for the caller. -/
def request_verification (s : OVState) (sender provider account_id now : ℕ) :
    Except OvErr OVState :=
  let req : VerificationRequest :=
    { user := sender, provider := provider, account_id := account_id,
      request_timestamp := now, status := 0 }
  Except.ok { s with
    verification_requests := insertK s.verification_requests sender req }

/-- `submit_verification(user, monthly_amount, total_sent, paid_count,
total_count)`: the source reads `msg_sender` nowhere — there is no caller
check.  `mintOk` is the outcome of the external NFT `mint` call, propagated
with `?`. -/
def submit_verification (s : OVState)
    (sender user monthly_amount total_sent paid_count total_count : ℕ)
    (mintOk : Bool) : Except OvErr OVState :=
  let request := lookupD s.verification_requests user VerificationRequest.zero
  if request.status ≠ 0 then Except.error OvErr.alreadyProcessed else
  if mintOk = false then Except.error OvErr.mintFailed else
  let verified := { request with status := 1 }
  let reqs := insertK s.verification_requests user verified
  Except.ok { s with verification_requests := reqs }

/-- `start_monitoring_loan`: LoanManager-only. -/
def start_monitoring_loan (s : OVState) (sender loan_id : ℕ) :
    Except OvErr OVState :=
  if sender ≠ s.loan_manager then Except.error OvErr.onlyLoanManager else
  Except.ok { s with monitored_loans := insertK s.monitored_loans loan_id true }

/-- `report_remittance(nft_id, amount, loan_id)`: only guarded by the
monitored-loan flag — no caller check.  `updateOk` and `autoOk` are the
outcomes of the external `update_remittance` and `process_auto_repayment`
calls. -/
def report_remittance (s : OVState) (sender nft_id amount loan_id : ℕ)
    (updateOk autoOk : Bool) : Except OvErr OVState :=
  if lookupD s.monitored_loans loan_id false = false then
    Except.error OvErr.loanNotMonitored else
  if updateOk = false then Except.error OvErr.updateFailed else
  if autoOk = false then Except.error OvErr.autoRepayFailed else
  Except.ok s

/-- `report_missed_payment(loan_id, nft_id)`: no caller check and no
monitored-loan check; `markOk` is the outcome of the external
`mark_payment_missed` call. -/
def report_missed_payment (s : OVState) (sender loan_id nft_id : ℕ)
    (markOk : Bool) : Except OvErr OVState :=
  if markOk = false then Except.error OvErr.markFailed else
  Except.ok s

end OracleVerifier

/-! ## Pool call sequences -/

/-- One external call to the pool, with its arguments and the outcomes of any
external token transfers it performs. -/
inductive PoolOp where
  | deposit (sender amount now : ℕ) (tOk : Bool)
  | withdraw (sender amount : ℕ) (tOk : Bool)
  | borrow (caller amount borrower : ℕ) (tOk : Bool)
  | repay (caller principal interest : ℕ)
  deriving Repr, DecidableEq

/-- Execute one pool call with revert-on-failure semantics: an error result
leaves the storage unchanged. -/
def stepPool (s : PoolState) (op : PoolOp) : PoolState :=
  match op with
  | PoolOp.deposit sender amount now tOk =>
      match LendingPool.deposit s sender amount now tOk with
      | Except.ok t => t
      | Except.error _ => s
  | PoolOp.withdraw sender amount tOk =>
      match LendingPool.withdraw s sender amount tOk with
      | Except.ok r => r.1
      | Except.error _ => s
  | PoolOp.borrow caller amount b tOk =>
      match LendingPool.borrow s caller amount b tOk with
      | Except.ok t => t
      | Except.error _ => s
  | PoolOp.repay caller principal interest =>
      match LendingPool.repay s caller principal interest with
      | Except.ok t => t
      | Except.error _ => s

def runPool (s : PoolState) (ops : List PoolOp) : PoolState :=
  ops.foldl stepPool s

/-- The pool bookkeeping invariant of the specification: distinct lender
entries, lender deposits sum to `total_liquidity`, and
`total_liquidity ≥ total_borrowed` (the liquidity is stored in 256 bits). -/
def poolInv (s : PoolState) : Prop :=
  keysND s.lenders ∧ sumDep s.lenders = s.total_liquidity ∧
    s.total_borrowed ≤ s.total_liquidity ∧ s.total_liquidity < M256

/-- Side conditions under which a call avoids 256-bit wrap-around: a deposit
must not saturate `total_liquidity`, and a repayment must not exceed the
outstanding `total_borrowed`. -/
def goodOp (s : PoolState) (op : PoolOp) : Bool :=
  match op with
  | PoolOp.deposit _ amount _ _ => decide (s.total_liquidity + amount < M256)
  | PoolOp.repay _ principal _ => decide (principal ≤ s.total_borrowed)
  | _ => true

def goodTrace (s : PoolState) : List PoolOp → Bool
  | [] => true
  | op :: rest => goodOp s op && goodTrace (stepPool s op) rest

/-- A sequence made only of `repay` calls. -/
def onlyRepays : List PoolOp → Bool
  | [] => true
  | PoolOp.repay _ _ _ :: rest => onlyRepays rest
  | _ :: _ => false

/-! ## Concrete states used by the claim theorems -/

/-- A lender holding 100 tokens whose accrual checkpoint lags the pool
accumulator by 1e9, i.e. exactly 100 of settled-but-unclaimed interest. -/
def lenderA : LenderInfo :=
  { deposit_amount := 100, deposit_timestamp := 0, earned_interest := 0,
    share_percentage := 10000, last_acc_interest_per_share := 0 }

def poolA : PoolState :=
  { loan_manager := 1, usdc_token := 2, base_interest_rate := 500,
    max_utilization := 9000, total_liquidity := 100, total_borrowed := 0,
    total_interest_earned := 0, accumulated_interest_per_share := 1000000000,
    lenders := [(7, lenderA)] }

/-- A loan already Repaid, with one missed-payment report on record. -/
def loanRepaid : LoanManager.Loan :=
  { loan_id := 1, borrower := 7, nft_collateral_id := 21, loan_amount := 1000,
    outstanding_balance := 0, total_repaid := 0, interest_rate_bps := 1200,
    duration_months := 12, monthly_payment := 100, start_timestamp := 0,
    next_payment_due := 2592000, status := 2, payments_made := 0,
    payments_missed := 1 }

/-- An Active loan with outstanding 1000 at 1200 bps (1% per month). -/
def loanActive : LoanManager.Loan :=
  { loan_id := 2, borrower := 7, nft_collateral_id := 22, loan_amount := 1000,
    outstanding_balance := 1000, total_repaid := 5, interest_rate_bps := 1200,
    duration_months := 12, monthly_payment := 100, start_timestamp := 0,
    next_payment_due := 2592000, status := 1, payments_made := 3,
    payments_missed := 0 }

def lmA : LoanManager.LMState :=
  { admin := 1, oracle := 3, remittance_nft := 4, lending_pool := 5, usdc := 6,
    loan_counter := 2, loans := [(1, loanRepaid), (2, loanActive)] }

def reqPending : OracleVerifier.VerificationRequest :=
  { user := 7, provider := 11, account_id := 12, request_timestamp := 0,
    status := 0 }

def ovA : OracleVerifier.OVState :=
  { admin := 1, remittance_nft := 5, loan_manager := 6,
    verification_requests := [(7, reqPending)], monitored_loans := [(42, true)] }

def opsC6 : List PoolOp :=
  [PoolOp.deposit 7 100 0 true, PoolOp.borrow 1 40 9 true,
   PoolOp.repay 1 40 10, PoolOp.withdraw 7 50 true]

def s0c : PoolState := LendingPool.initPool 1 2 500

def s1c : PoolState :=
  match LendingPool.deposit s0c 7 100 0 true with
  | Except.ok t => t
  | Except.error _ => s0c

def opsC7 : List PoolOp := [PoolOp.repay 1 0 30, PoolOp.repay 1 0 70]

def s9c : LoanManager.LMState :=
  match LoanManager.process_payment lmA 2 7 100 true true true with
  | Except.ok t => t
  | Except.error _ => lmA

/-! ## Theorems: arithmetic and association-list facts -/

theorem M256_pos : 0 < M256 := by unfold M256; positivity

theorem M32_pos : 0 < M32 := by unfold M32; positivity

theorem wadd_eq {a b : ℕ} (h : a + b < M256) : wadd a b = a + b :=
  Nat.mod_eq_of_lt h

theorem wmul_eq {a b : ℕ} (h : a * b < M256) : wmul a b = a * b :=
  Nat.mod_eq_of_lt h

theorem wsub_eq {a b : ℕ} (hb : b ≤ a) (ha : a < M256) : wsub a b = a - b := by
  unfold wsub
  rw [Nat.mod_eq_of_lt (lt_of_le_of_lt hb ha)]
  have h1 : a + (M256 - b) = (a - b) + M256 := by
    have := M256_pos
    omega
  rw [h1, Nat.add_mod_right, Nat.mod_eq_of_lt (by omega)]

theorem satAdd_eq {a b : ℕ} (h : a + b < M256) : satAdd a b = a + b := by
  unfold satAdd
  omega

theorem lookupD_insertK_self {α : Type} (l : List (ℕ × α)) (k : ℕ) (v : α) (d : α) :
    lookupD (insertK l k v) k d = v := by
  simp [insertK, lookupD]

theorem lookupD_insertK_ne {α : Type} (l : List (ℕ × α)) (k k' : ℕ) (v : α) (d : α)
    (h : k' ≠ k) : lookupD (insertK l k v) k' d = lookupD l k' d := by
  simp only [insertK, lookupD]
  rw [if_neg (fun he => h he.symm)]
  induction l with
  | nil => simp [eraseK, lookupD]
  | cons p t ih =>
      by_cases hp : p.1 = k
      · simp only [eraseK, if_pos hp, lookupD]
        rw [ih, if_neg (by rw [hp]; exact fun he => h he.symm)]
      · simp only [eraseK, if_neg hp, lookupD]
        by_cases hpk : p.1 = k'
        · rw [if_pos hpk, if_pos hpk]
        · rw [if_neg hpk, if_neg hpk, ih]

theorem mem_keys_eraseK {α : Type} (l : List (ℕ × α)) (k x : ℕ)
    (h : x ∈ (eraseK l k).map Prod.fst) : x ∈ l.map Prod.fst := by
  induction l with
  | nil => simp [eraseK] at h
  | cons p t ih =>
      by_cases hp : p.1 = k
      · simp only [eraseK, if_pos hp] at h
        simp [ih h]
      · simp only [eraseK, if_neg hp, List.map_cons, List.mem_cons] at h
        rcases h with h | h
        · simp [h]
        · simp [ih h]

theorem not_mem_keys_eraseK {α : Type} (l : List (ℕ × α)) (k : ℕ) :
    k ∉ (eraseK l k).map Prod.fst := by
  induction l with
  | nil => simp [eraseK]
  | cons p t ih =>
      by_cases hp : p.1 = k
      · simpa [eraseK, hp] using ih
      · simp only [eraseK, if_neg hp, List.map_cons, List.mem_cons]
        rintro (h | h)
        · exact hp h.symm
        · exact ih h

theorem keysND_eraseK {α : Type} (l : List (ℕ × α)) (k : ℕ)
    (h : keysND l) : keysND (eraseK l k) := by
  induction l with
  | nil => simpa [eraseK] using h
  | cons p t ih =>
      simp only [keysND, List.map_cons, List.nodup_cons] at h
      by_cases hp : p.1 = k
      · simpa [eraseK, hp] using ih h.2
      · simp only [keysND, eraseK, if_neg hp, List.map_cons, List.nodup_cons]
        exact ⟨fun hm => h.1 (mem_keys_eraseK t k p.1 hm), ih h.2⟩

theorem keysND_insertK {α : Type} (l : List (ℕ × α)) (k : ℕ) (v : α)
    (h : keysND l) : keysND (insertK l k v) := by
  simp only [keysND, insertK, List.map_cons, List.nodup_cons]
  exact ⟨not_mem_keys_eraseK l k, keysND_eraseK l k h⟩

theorem eraseK_eq_of_not_mem {α : Type} (l : List (ℕ × α)) (k : ℕ)
    (h : k ∉ l.map Prod.fst) : eraseK l k = l := by
  induction l with
  | nil => rfl
  | cons p t ih =>
      simp only [List.map_cons, List.mem_cons] at h
      push_neg at h
      have hne : p.1 ≠ k := fun he => h.1 he.symm
      simp only [eraseK, if_neg hne]
      rw [ih h.2]

theorem lookupD_dep_le_sumDep (l : List (ℕ × LenderInfo)) (k : ℕ) :
    (lookupD l k LenderInfo.zero).deposit_amount ≤ sumDep l := by
  induction l with
  | nil => simp [lookupD, LenderInfo.zero, sumDep]
  | cons p t ih =>
      simp only [lookupD, sumDep]
      by_cases hp : p.1 = k
      · rw [if_pos hp]; omega
      · rw [if_neg hp]; omega

theorem sumDep_eraseK (l : List (ℕ × LenderInfo)) (k : ℕ) (h : keysND l) :
    sumDep (eraseK l k) + (lookupD l k LenderInfo.zero).deposit_amount = sumDep l := by
  induction l with
  | nil => simp [eraseK, lookupD, LenderInfo.zero, sumDep]
  | cons p t ih =>
      simp only [keysND, List.map_cons, List.nodup_cons] at h
      by_cases hp : p.1 = k
      · simp only [eraseK, if_pos hp, lookupD, sumDep]
        rw [eraseK_eq_of_not_mem t k (by rw [← hp]; exact h.1)]
        omega
      · simp only [eraseK, if_neg hp, lookupD, sumDep]
        have := ih h.2
        omega

theorem sumDep_insertK (l : List (ℕ × LenderInfo)) (k : ℕ) (v : LenderInfo)
    (h : keysND l) :
    sumDep (insertK l k v) + (lookupD l k LenderInfo.zero).deposit_amount =
      sumDep l + v.deposit_amount := by
  simp only [insertK, sumDep]
  have := sumDep_eraseK l k h
  omega

/-! ## Theorems: LendingPool call characterizations -/

namespace LendingPool

theorem update_interest_lenders (s : PoolState) (a : ℕ) :
    (update_interest s a).2.lenders = insertK s.lenders a (uiLender s a) := rfl

theorem keysND_ui (s : PoolState) (a : ℕ) (h : keysND s.lenders) :
    keysND (update_interest s a).2.lenders := by
  rw [update_interest_lenders]
  exact keysND_insertK _ _ _ h

theorem lookupD_ui_self (s : PoolState) (a : ℕ) :
    lookupD (update_interest s a).2.lenders a LenderInfo.zero = uiLender s a := by
  rw [update_interest_lenders]
  exact lookupD_insertK_self _ _ _ _

theorem sumDep_ui (s : PoolState) (a : ℕ) (h : keysND s.lenders) :
    sumDep (update_interest s a).2.lenders = sumDep s.lenders := by
  rw [update_interest_lenders]
  have h1 := sumDep_insertK s.lenders a (uiLender s a) h
  have h2 : (uiLender s a).deposit_amount =
      (lookupD s.lenders a LenderInfo.zero).deposit_amount := rfl
  omega

theorem sumDep_insertK_after_ui (s : PoolState) (a : ℕ) (v : LenderInfo)
    (hnd : keysND s.lenders) :
    sumDep (insertK (update_interest s a).2.lenders a v) +
        (lookupD s.lenders a LenderInfo.zero).deposit_amount =
      sumDep s.lenders + v.deposit_amount := by
  have h1 := sumDep_insertK (update_interest s a).2.lenders a v (keysND_ui s a hnd)
  rw [lookupD_ui_self] at h1
  have h2 : (uiLender s a).deposit_amount =
      (lookupD s.lenders a LenderInfo.zero).deposit_amount := rfl
  have h3 := sumDep_ui s a hnd
  omega

theorem deposit_ok_spec (s : PoolState) (sender amount now : ℕ) (tOk : Bool)
    (s1 : PoolState) (hnd : keysND s.lenders)
    (h : deposit s sender amount now tOk = Except.ok s1) :
    s1.total_borrowed = s.total_borrowed ∧
    s1.accumulated_interest_per_share = s.accumulated_interest_per_share ∧
    s1.total_liquidity = satAdd s.total_liquidity amount ∧
    keysND s1.lenders ∧
    sumDep s1.lenders + (lookupD s.lenders sender LenderInfo.zero).deposit_amount =
      sumDep s.lenders +
        satAdd (lookupD s.lenders sender LenderInfo.zero).deposit_amount amount := by
  have hne : amount ≠ 0 := by
    intro h0
    rw [deposit, if_pos h0] at h
    simp at h
  rw [deposit, if_neg hne] at h
  simp only [] at h
  repeat' split at h
  all_goals
    first
      | exact Except.noConfusion h
      | (rw [Except.ok.injEq] at h
         subst h
         rw [lookupD_ui_self]
         refine ⟨rfl, rfl, rfl, keysND_insertK _ _ _ (keysND_ui s sender hnd), ?_⟩
         exact sumDep_insertK_after_ui s sender _ hnd)

theorem withdraw_ok_spec (s : PoolState) (sender amount : ℕ) (tOk : Bool)
    (r : PoolState × ℕ) (hnd : keysND s.lenders)
    (h : withdraw s sender amount tOk = Except.ok r) :
    r.1.total_borrowed = s.total_borrowed ∧
    r.1.accumulated_interest_per_share = s.accumulated_interest_per_share ∧
    r.1.total_liquidity = s.total_liquidity - amount ∧
    keysND r.1.lenders ∧
    sumDep r.1.lenders + (lookupD s.lenders sender LenderInfo.zero).deposit_amount =
      sumDep s.lenders +
        ((lookupD s.lenders sender LenderInfo.zero).deposit_amount - amount) ∧
    amount ≤ (lookupD s.lenders sender LenderInfo.zero).deposit_amount ∧
    amount ≤ s.total_liquidity - s.total_borrowed := by
  have hne : amount ≠ 0 := by
    intro h0
    rw [withdraw, if_pos h0] at h
    simp at h
  rw [withdraw, if_neg hne] at h
  simp only [] at h
  repeat' split at h
  all_goals
    first
      | exact Except.noConfusion h
      | (rw [Except.ok.injEq] at h
         subst h
         refine ⟨rfl, rfl, rfl,
           keysND_insertK _ _ _ (keysND_ui s sender hnd), ?_, by omega, by omega⟩
         exact sumDep_insertK_after_ui s sender _ hnd)

theorem borrow_ok_spec (s : PoolState) (caller amount b : ℕ) (tOk : Bool)
    (s1 : PoolState) (h : borrow s caller amount b tOk = Except.ok s1) :
    s1.lenders = s.lenders ∧
    s1.total_liquidity = s.total_liquidity ∧
    s1.total_borrowed = wadd s.total_borrowed amount ∧
    wadd s.total_borrowed amount ≤ s.total_liquidity := by
  rw [borrow] at h
  split at h
  case isTrue hc =>
    split at h
    case isTrue h0 => simp at h
    case isFalse h0 =>
      split at h
      case isTrue hl => simp at h
      case isFalse hl =>
        rw [Except.ok.injEq] at h
        subst h
        exact ⟨rfl, rfl, rfl, by omega⟩
  case isFalse hc => simp at h

theorem repay_ok_spec (s : PoolState) (caller principal interest : ℕ)
    (s1 : PoolState) (h : repay s caller principal interest = Except.ok s1) :
    s1.lenders = s.lenders ∧
    s1.total_liquidity = s.total_liquidity ∧
    s1.total_borrowed = wsub s.total_borrowed principal := by
  rw [repay] at h
  split at h
  case isTrue hc =>
    split at h
    case isTrue hi =>
      rw [Except.ok.injEq] at h
      subst h
      exact ⟨rfl, rfl, rfl⟩
    case isFalse hi =>
      rw [Except.ok.injEq] at h
      subst h
      exact ⟨rfl, rfl, rfl⟩
  case isFalse hc => simp at h

end LendingPool

theorem poolInv_initPool (lm tok rate : ℕ) :
    poolInv (LendingPool.initPool lm tok rate) := by
  refine ⟨?_, rfl, le_refl 0, M256_pos⟩
  simp [keysND, LendingPool.initPool]

theorem poolInv_step (s : PoolState) (op : PoolOp)
    (hInv : poolInv s) (hOp : goodOp s op = true) : poolInv (stepPool s op) := by
  obtain ⟨hnd, hsum, hbl, hlt⟩ := hInv
  cases op with
  | deposit sender amount now tOk =>
      simp only [goodOp, decide_eq_true_eq] at hOp
      cases hE : LendingPool.deposit s sender amount now tOk with
      | error e =>
          simp only [stepPool, hE]
          exact ⟨hnd, hsum, hbl, hlt⟩
      | ok s1 =>
          simp only [stepPool, hE]
          obtain ⟨hb, hacc, hliq, hnd1, hsum1⟩ :=
            LendingPool.deposit_ok_spec s sender amount now tOk s1 hnd hE
          have hdep := lookupD_dep_le_sumDep s.lenders sender
          have h1 : satAdd s.total_liquidity amount = s.total_liquidity + amount :=
            satAdd_eq (by omega)
          have h2 : satAdd (lookupD s.lenders sender LenderInfo.zero).deposit_amount
              amount = (lookupD s.lenders sender LenderInfo.zero).deposit_amount +
              amount := satAdd_eq (by omega)
          exact ⟨hnd1, by omega, by omega, by omega⟩
  | withdraw sender amount tOk =>
      cases hE : LendingPool.withdraw s sender amount tOk with
      | error e =>
          simp only [stepPool, hE]
          exact ⟨hnd, hsum, hbl, hlt⟩
      | ok r =>
          simp only [stepPool, hE]
          obtain ⟨hb, hacc, hliq, hnd1, hsum1, hle1, hle2⟩ :=
            LendingPool.withdraw_ok_spec s sender amount tOk r hnd hE
          have hdep := lookupD_dep_le_sumDep s.lenders sender
          exact ⟨hnd1, by omega, by omega, by omega⟩
  | borrow caller amount b tOk =>
      cases hE : LendingPool.borrow s caller amount b tOk with
      | error e =>
          simp only [stepPool, hE]
          exact ⟨hnd, hsum, hbl, hlt⟩
      | ok s1 =>
          simp only [stepPool, hE]
          obtain ⟨hlen, hliq, hb, hle⟩ :=
            LendingPool.borrow_ok_spec s caller amount b tOk s1 hE
          have hsd : sumDep s1.lenders = sumDep s.lenders := by rw [hlen]
          refine ⟨?_, by omega, by omega, by omega⟩
          rw [hlen]; exact hnd
  | repay caller principal interest =>
      simp only [goodOp, decide_eq_true_eq] at hOp
      cases hE : LendingPool.repay s caller principal interest with
      | error e =>
          simp only [stepPool, hE]
          exact ⟨hnd, hsum, hbl, hlt⟩
      | ok s1 =>
          simp only [stepPool, hE]
          obtain ⟨hlen, hliq, hb⟩ :=
            LendingPool.repay_ok_spec s caller principal interest s1 hE
          have hsd : sumDep s1.lenders = sumDep s.lenders := by rw [hlen]
          have hw : wsub s.total_borrowed principal = s.total_borrowed - principal :=
            wsub_eq hOp (lt_of_le_of_lt hbl hlt)
          refine ⟨?_, by omega, by omega, by omega⟩
          rw [hlen]; exact hnd

theorem poolInv_runPool (ops : List PoolOp) :
    ∀ s, poolInv s → goodTrace s ops = true → poolInv (runPool s ops) := by
  induction ops with
  | nil => intro s h _; exact h
  | cons op t ih =>
      intro s h hg
      rw [goodTrace, Bool.and_eq_true] at hg
      exact ih (stepPool s op) (poolInv_step s op h hg.1) hg.2

theorem goodTrace_take (ops : List PoolOp) (n : ℕ) :
    ∀ s, goodTrace s ops = true → goodTrace s (ops.take n) = true := by
  induction ops generalizing n with
  | nil =>
      intro s h
      rw [List.take_nil]
      rfl
  | cons op t ih =>
      intro s h
      cases n with
      | zero => rfl
      | succ m =>
          rw [List.take_succ_cons]
          rw [goodTrace, Bool.and_eq_true] at h ⊢
          exact ⟨h.1, ih m (stepPool s op) h.2⟩

/-- Each lender entry is written by `update_interest`, so its fields project
to the source lender's fields except the two updated ones. -/
theorem uiLender_dep (s : PoolState) (a : ℕ) :
    (LendingPool.uiLender s a).deposit_amount =
      (lookupD s.lenders a LenderInfo.zero).deposit_amount := rfl

theorem update_interest_fst (s : PoolState) (a : ℕ) :
    (LendingPool.update_interest s a).1 =
      if 0 < (lookupD s.lenders a LenderInfo.zero).deposit_amount then
        wadd (lookupD s.lenders a LenderInfo.zero).earned_interest
          (wmul (lookupD s.lenders a LenderInfo.zero).deposit_amount
            (wsub s.accumulated_interest_per_share
              (lookupD s.lenders a LenderInfo.zero).last_acc_interest_per_share) /
            1000000000)
      else 0 := rfl

theorem update_interest_fst_zero (s : PoolState) (a : ℕ)
    (h : (lookupD s.lenders a LenderInfo.zero).deposit_amount = 0) :
    (LendingPool.update_interest s a).1 = 0 := by
  rw [update_interest_fst, h]
  simp

/-- After any successful `deposit`, the caller's entry has zero settled
interest (the write-back of `accrued_interest` zeroes it whenever the prior
deposit was nonzero, and `pending` is itself zero when the prior deposit was
zero), and its accrual checkpoint equals the pool accumulator, which the call
does not change. -/
theorem deposit_ok_lender (s : PoolState) (sender amount now : ℕ) (tOk : Bool)
    (s1 : PoolState)
    (h : LendingPool.deposit s sender amount now tOk = Except.ok s1) :
    (lookupD s1.lenders sender LenderInfo.zero).earned_interest = 0 ∧
    (lookupD s1.lenders sender LenderInfo.zero).last_acc_interest_per_share =
      s.accumulated_interest_per_share ∧
    s1.accumulated_interest_per_share = s.accumulated_interest_per_share := by
  have hne : amount ≠ 0 := by
    intro h0
    rw [LendingPool.deposit, if_pos h0] at h
    simp at h
  rw [LendingPool.deposit, if_neg hne] at h
  simp only [] at h
  repeat' split at h
  all_goals
    first
      | exact Except.noConfusion h
      | (rw [Except.ok.injEq] at h
         subst h
         rw [lookupD_insertK_self, LendingPool.lookupD_ui_self]
         exact ⟨rfl, rfl, rfl⟩)
      | (rename_i hc
         exfalso
         have h1 := hc.1
         rw [LendingPool.lookupD_ui_self] at h1
         have h2 : (lookupD s.lenders sender LenderInfo.zero).deposit_amount = 0 := h1
         have h3 := update_interest_fst_zero s sender h2
         have h4 := hc.2
         omega)

/-- `repay` never touches the lender table or `total_liquidity`, whether it
succeeds or reverts. -/
theorem stepPool_repay (s : PoolState) (c p i : ℕ) :
    (stepPool s (PoolOp.repay c p i)).lenders = s.lenders ∧
    (stepPool s (PoolOp.repay c p i)).total_liquidity = s.total_liquidity := by
  cases hE : LendingPool.repay s c p i with
  | error e => simp [stepPool, hE]
  | ok s1 =>
      obtain ⟨h1, h2, _⟩ := LendingPool.repay_ok_spec s c p i s1 hE
      simp [stepPool, hE, h1, h2]

theorem runPool_onlyRepays (ops : List PoolOp) :
    ∀ s, onlyRepays ops = true → (runPool s ops).lenders = s.lenders := by
  induction ops with
  | nil => intro s h; rfl
  | cons op t ih =>
      intro s h
      cases op with
      | repay c p i =>
          have hl := stepPool_repay s c p i
          have hr : runPool s (PoolOp.repay c p i :: t) =
              runPool (stepPool s (PoolOp.repay c p i)) t := rfl
          rw [hr, ih _ (by simpa [onlyRepays] using h), hl.1]
      | deposit a b c d => simp [onlyRepays] at h
      | withdraw a b c => simp [onlyRepays] at h
      | borrow a b c d => simp [onlyRepays] at h

/-- Settled-interest payout of a successful `withdraw`: with a zero
`earned_interest` checkpoint and no wrap-around, the single token transfer is
exactly `amount + deposit * (acc - last) / 1e9`. -/
theorem withdraw_pays (s : PoolState) (a amt : ℕ) (tOk : Bool)
    (hOk : (LendingPool.withdraw s a amt tOk).isOk = true)
    (hE0 : (lookupD s.lenders a LenderInfo.zero).earned_interest = 0)
    (hmono : (lookupD s.lenders a LenderInfo.zero).last_acc_interest_per_share ≤
      s.accumulated_interest_per_share)
    (hacc : s.accumulated_interest_per_share < M256)
    (hprod : (lookupD s.lenders a LenderInfo.zero).deposit_amount *
        (s.accumulated_interest_per_share -
          (lookupD s.lenders a LenderInfo.zero).last_acc_interest_per_share) <
        M256)
    (hsum : amt + (lookupD s.lenders a LenderInfo.zero).deposit_amount *
        (s.accumulated_interest_per_share -
          (lookupD s.lenders a LenderInfo.zero).last_acc_interest_per_share) /
        1000000000 < M256) :
    (LendingPool.withdraw s a amt tOk).map Prod.snd =
      Except.ok (amt + (lookupD s.lenders a LenderInfo.zero).deposit_amount *
        (s.accumulated_interest_per_share -
          (lookupD s.lenders a LenderInfo.zero).last_acc_interest_per_share) /
        1000000000) := by
  by_cases h1 : amt = 0
  · rw [LendingPool.withdraw, if_pos h1] at hOk
    simp [Except.isOk, Except.toBool] at hOk
  · by_cases h2 : (lookupD s.lenders a LenderInfo.zero).deposit_amount < amt
    · rw [LendingPool.withdraw, if_neg h1] at hOk
      simp only [] at hOk
      rw [if_pos h2] at hOk
      simp [Except.isOk, Except.toBool] at hOk
    · by_cases h3 : s.total_liquidity - s.total_borrowed < amt
      · rw [LendingPool.withdraw, if_neg h1] at hOk
        simp only [] at hOk
        rw [if_neg h2, if_pos h3] at hOk
        simp [Except.isOk, Except.toBool] at hOk
      · have hd : 0 < (lookupD s.lenders a LenderInfo.zero).deposit_amount := by
          omega
        have hdivle := Nat.div_le_self
          ((lookupD s.lenders a LenderInfo.zero).deposit_amount *
            (s.accumulated_interest_per_share -
              (lookupD s.lenders a LenderInfo.zero).last_acc_interest_per_share))
          1000000000
        have hpv : (LendingPool.update_interest s a).1 =
            (lookupD s.lenders a LenderInfo.zero).deposit_amount *
              (s.accumulated_interest_per_share -
                (lookupD s.lenders a LenderInfo.zero).last_acc_interest_per_share) /
              1000000000 := by
          rw [update_interest_fst, if_pos hd, hE0,
            wsub_eq hmono hacc, wmul_eq hprod, wadd_eq (by omega), Nat.zero_add]
        rw [LendingPool.withdraw, if_neg h1] at hOk ⊢
        simp only [] at hOk ⊢
        rw [if_neg h2, if_neg h3] at hOk ⊢
        by_cases h4 : 0 < s.total_liquidity - amt
        · rw [if_pos h4] at hOk ⊢
          by_cases h5 : wmul ((lookupD s.lenders a LenderInfo.zero).deposit_amount -
              amt) 10000 / (s.total_liquidity - amt) < M32
          · rw [if_pos h5]
            simp only [Except.map]
            rw [hpv, satAdd_eq (by omega)]
          · rw [if_neg h5] at hOk
            simp [Except.isOk, Except.toBool] at hOk
        · rw [if_neg h4] at hOk ⊢
          rw [if_pos M32_pos]
          simp only [Except.map]
          rw [hpv, satAdd_eq (by omega)]

/-- `process_payment` does not reach the Active status check when the caller
is not authorized upstream, and when it does and the loan is not Active it
fails before any state write or external call. -/
theorem process_payment_not_active (s : LoanManager.LMState)
    (loan_id payer amount : ℕ) (tOk rOk uOk : Bool)
    (h1 : (lookupD s.loans loan_id LoanManager.Loan.zero).status ≠ 1) :
    (LoanManager.process_payment s loan_id payer amount tOk rOk uOk).isOk =
      false := by
  by_cases ha : amount = 0
  · rw [LoanManager.process_payment, if_pos ha]; rfl
  · rw [LoanManager.process_payment, if_neg ha]
    try simp only []
    rw [if_pos h1]
    rfl

/-! ## Claims -/

/-- C1.  The claim: every operator-only entry point of the gateway
(`submit_verification`, `report_remittance`, `report_missed_payment`) rejects
callers outside the authorized operator set with no state change.  The code
has no caller check in any of the three (the operator array is commented out
of storage and `msg_sender` is never read): caller 99 — not the admin —
successfully submits a verification for user 7, flipping the request to
Verified, successfully reports a remittance on monitored loan 42 and
successfully reports a missed payment. -/
theorem C1_no_operator_check :
    (99 : ℕ) ≠ ovA.admin ∧
    (OracleVerifier.submit_verification ovA 99 7 10 1000 5 5 true).map
      (fun t => (lookupD t.verification_requests 7
        OracleVerifier.VerificationRequest.zero).status) = Except.ok 1 ∧
    OracleVerifier.report_remittance ovA 99 3 20 42 true true = Except.ok ovA ∧
    OracleVerifier.report_missed_payment ovA 99 42 3 true = Except.ok ovA :=
  ⟨by decide, rfl, rfl, rfl⟩

/-- C2.  The claim: after `deposit`, `earned_interest` equals the settled
pending value, so a lender with a nonzero prior deposit keeps their settled
interest.  The code first settles 100 pending interest for lender 7
(`update_interest` returns 100 and writes it back), then the deposit's final
write overwrites `earned_interest` with `accrued_interest`, which is 0
whenever the prior deposit was nonzero — the settled 100 is erased. -/
theorem C2_deposit_discards_settled_interest :
    (LendingPool.update_interest poolA 7).1 = 100 ∧
    (LendingPool.deposit poolA 7 50 1 true).map
      (fun t => (lookupD t.lenders 7 LenderInfo.zero).earned_interest) =
      Except.ok 0 :=
  ⟨rfl, rfl⟩

/-- C3, counterexample.  `mark_payment_missed` called by the oracle on loan 1,
which is Repaid (status 2) with one missed payment on record, succeeds and
rewrites the loan: `payments_missed` becomes 2 and the status flips from
Repaid to Defaulted (3) — so Repaid is not terminal as claimed. -/
theorem C3_cex_repaid_loan_mutated :
    (lookupD lmA.loans 1 LoanManager.Loan.zero).status = 2 ∧
    (LoanManager.mark_payment_missed lmA 3 1).map
      (fun t => ((lookupD t.loans 1 LoanManager.Loan.zero).status,
                 (lookupD t.loans 1 LoanManager.Loan.zero).payments_missed)) =
      Except.ok (3, 2) :=
  ⟨rfl, rfl⟩

/-- C3, amended.  For every loan whose status is Repaid (2) or Defaulted (3):
`approve_loan`, `make_payment` and `process_auto_repayment` all fail (an
error models a reverted call, so the loan is unchanged); but
`mark_payment_missed`, called by the oracle, still succeeds and increments
the loan's `payments_missed` (saturating u32), because it checks no status. -/
theorem C3_terminal_except_mark_missed (s : LoanManager.LMState)
    (loan_id sender amt : ℕ) (sOk bOk tOk rOk uOk : Bool)
    (h : (lookupD s.loans loan_id LoanManager.Loan.zero).status = 2 ∨
         (lookupD s.loans loan_id LoanManager.Loan.zero).status = 3) :
    (LoanManager.approve_loan s sender loan_id sOk bOk).isOk = false ∧
    (LoanManager.make_payment s sender loan_id amt tOk rOk uOk).isOk = false ∧
    (LoanManager.process_auto_repayment s sender loan_id amt tOk rOk uOk).isOk
      = false ∧
    (LoanManager.mark_payment_missed s s.oracle loan_id).map
      (fun t => (lookupD t.loans loan_id LoanManager.Loan.zero).payments_missed)
      = Except.ok
        (min ((lookupD s.loans loan_id LoanManager.Loan.zero).payments_missed
          + 1) (M32 - 1)) := by
  have hst0 : (lookupD s.loans loan_id LoanManager.Loan.zero).status ≠ 0 := by
    rcases h with h | h <;> omega
  have hst1 : (lookupD s.loans loan_id LoanManager.Loan.zero).status ≠ 1 := by
    rcases h with h | h <;> omega
  refine ⟨?_, ?_, ?_, ?_⟩
  · by_cases hs : sender ≠ s.admin
    · rw [LoanManager.approve_loan, if_pos hs]; rfl
    · rw [LoanManager.approve_loan, if_neg hs]
      try simp only []
      rw [if_pos hst0]
      rfl
  · rw [LoanManager.make_payment]
    try simp only []
    rw [if_pos hst1]
    rfl
  · by_cases ho : sender ≠ s.oracle
    · rw [LoanManager.process_auto_repayment, if_pos ho]; rfl
    · rw [LoanManager.process_auto_repayment, if_neg ho]
      try simp only []
      cases hE : LoanManager.process_payment s loan_id
          (lookupD s.loans loan_id LoanManager.Loan.zero).borrower
          (if (lookupD s.loans loan_id LoanManager.Loan.zero).monthly_payment ≤
              amt
           then (lookupD s.loans loan_id LoanManager.Loan.zero).monthly_payment
           else amt) tOk rOk uOk with
      | error e => rfl
      | ok s1 =>
          have hf := process_payment_not_active s loan_id
            (lookupD s.loans loan_id LoanManager.Loan.zero).borrower
            (if (lookupD s.loans loan_id LoanManager.Loan.zero).monthly_payment
                ≤ amt
             then (lookupD s.loans loan_id LoanManager.Loan.zero).monthly_payment
             else amt) tOk rOk uOk hst1
          rw [hE] at hf
          simp [Except.isOk, Except.toBool] at hf
  · rw [LoanManager.mark_payment_missed, if_neg (by simp)]
    simp only []
    split
    next hc =>
      simp only [Except.map]
      rw [lookupD_insertK_self]
    next hc =>
      simp only [Except.map]
      rw [lookupD_insertK_self]

/-- C3 witness: the amended statement at the Repaid loan 1 of `lmA` with an
arbitrary non-privileged caller 9. -/
theorem C3_terminal_except_mark_missed_witness :
    ((lookupD lmA.loans 1 LoanManager.Loan.zero).status = 2 ∨
     (lookupD lmA.loans 1 LoanManager.Loan.zero).status = 3) ∧
    ((LoanManager.approve_loan lmA 9 1 true true).isOk = false ∧
     (LoanManager.make_payment lmA 9 1 100 true true true).isOk = false ∧
     (LoanManager.process_auto_repayment lmA 9 1 100 true true true).isOk
       = false ∧
     (LoanManager.mark_payment_missed lmA lmA.oracle 1).map
       (fun t => (lookupD t.loans 1 LoanManager.Loan.zero).payments_missed)
       = Except.ok
         (min ((lookupD lmA.loans 1 LoanManager.Loan.zero).payments_missed + 1)
           (M32 - 1))) :=
  ⟨Or.inl rfl,
   C3_terminal_except_mark_missed lmA 1 9 100 true true true true true
     (Or.inl rfl)⟩

/-- C4.  The claim: a successful `withdraw(amount)` pays `amount + pending`
in one transfer and leaves `earned_interest` at zero, so settled interest
cannot be paid twice.  The code does transfer `amount + pending` (here
`50 + 100 = 150`), but it never zeroes `earned_interest`: after the call the
lender is still credited with the 100 that was just paid out (the
`update_interest` write-back stands and `withdraw` only rewrites
`deposit_amount` and `share_percentage`), so a later withdrawal pays the same
settled interest again. -/
theorem C4_withdraw_keeps_earned_interest :
    (LendingPool.withdraw poolA 7 50 true).map
      (fun r => (r.2, (lookupD r.1.lenders 7 LenderInfo.zero).earned_interest))
      = Except.ok (150, 100) := rfl

/-- C5.  The claim: a failed token transfer aborts `deposit`, `withdraw` and
`borrow` with all state changes discarded.  The code discards every transfer
result (`let _ = erc20.transfer...`; `borrow`'s success assert is commented
out), so each operation returns the same result whether the transfer fails
or succeeds; concretely, a `deposit(50)` whose `transferFrom` fails still
commits `total_liquidity = 150` and `deposit_amount = 150`. -/
theorem C5_transfer_failure_not_propagated :
    (∀ s sender amount now, LendingPool.deposit s sender amount now false =
      LendingPool.deposit s sender amount now true) ∧
    (∀ s sender amount, LendingPool.withdraw s sender amount false =
      LendingPool.withdraw s sender amount true) ∧
    (∀ s caller amount b, LendingPool.borrow s caller amount b false =
      LendingPool.borrow s caller amount b true) ∧
    (LendingPool.deposit poolA 7 50 1 false).map
      (fun t => (t.total_liquidity,
        (lookupD t.lenders 7 LenderInfo.zero).deposit_amount)) =
      Except.ok (150, 150) :=
  ⟨fun _ _ _ _ => rfl, fun _ _ _ => rfl, fun _ _ _ _ => rfl, rfl⟩

/-- C6, counterexample.  From the initial pool state, the single call
`repay(principal = 1, interest = 0)` by the loan manager wraps
`total_borrowed -= principal` around to `2^256 - 1`, so
`total_liquidity ≥ total_borrowed` is already false after one call. -/
theorem C6_cex_repay_underflow :
    (runPool (LendingPool.initPool 1 2 500) [PoolOp.repay 1 1 0]).total_liquidity
      < (runPool (LendingPool.initPool 1 2 500)
          [PoolOp.repay 1 1 0]).total_borrowed := by
  decide

/-- C6, amended.  For every sequence of pool calls from the initial state in
which each `repay`'s principal is at most the current `total_borrowed` and no
deposit saturates `total_liquidity` at `2^256 - 1`, after every call the
lender deposits sum to `total_liquidity` and
`total_liquidity ≥ total_borrowed` (`borrow` checks this before increasing
`total_borrowed`; reverted calls leave the state unchanged). -/
theorem C6_pool_invariants (lm tok rate : ℕ) (ops : List PoolOp) (n : ℕ)
    (h : goodTrace (LendingPool.initPool lm tok rate) ops = true) :
    poolInv (runPool (LendingPool.initPool lm tok rate) (ops.take n)) :=
  poolInv_runPool (ops.take n) _ (poolInv_initPool lm tok rate)
    (goodTrace_take ops n _ h)

/-- C6 witness: a deposit, a borrow, a repay with interest and a withdrawal
satisfy the side conditions, and the invariant holds after the full run. -/
theorem C6_pool_invariants_witness :
    goodTrace (LendingPool.initPool 1 2 500) opsC6 = true ∧
    poolInv (runPool (LendingPool.initPool 1 2 500) (opsC6.take 4)) :=
  ⟨by decide, C6_pool_invariants 1 2 500 opsC6 4 (by decide)⟩

/-- C7.  A lender deposits when the accumulator is at `A0 = s0.acc` (the
deposit checkpoints `last_acc` to `A0` and zeroes `earned_interest`), any
number of `repay` calls then move the accumulator to `A1` without touching
the lender table, and a successful withdrawal pays exactly
`amount + D * (A1 - A0) / 1e9` in its one transfer, where `D` is the
lender's deposit after the deposit call — independent of how the repays
split the accumulator increments.  The hypotheses rule out 256-bit
wrap-around of the intermediate products. -/
theorem C7_accrual_additive (s0 : PoolState) (a amtD now amtW : ℕ)
    (tOk : Bool) (ops : List PoolOp) (s1 : PoolState)
    (hdep : LendingPool.deposit s0 a amtD now tOk = Except.ok s1)
    (hops : onlyRepays ops = true)
    (hOk : (LendingPool.withdraw (runPool s1 ops) a amtW tOk).isOk = true)
    (hmono : s0.accumulated_interest_per_share ≤
      (runPool s1 ops).accumulated_interest_per_share)
    (hacc : (runPool s1 ops).accumulated_interest_per_share < M256)
    (hprod : (lookupD s1.lenders a LenderInfo.zero).deposit_amount *
        ((runPool s1 ops).accumulated_interest_per_share -
          s0.accumulated_interest_per_share) < M256)
    (hsum : amtW + (lookupD s1.lenders a LenderInfo.zero).deposit_amount *
        ((runPool s1 ops).accumulated_interest_per_share -
          s0.accumulated_interest_per_share) / 1000000000 < M256) :
    (LendingPool.withdraw (runPool s1 ops) a amtW tOk).map Prod.snd =
      Except.ok (amtW + (lookupD s1.lenders a LenderInfo.zero).deposit_amount *
        ((runPool s1 ops).accumulated_interest_per_share -
          s0.accumulated_interest_per_share) / 1000000000) := by
  obtain ⟨hE0, hLast, hAcc1⟩ := deposit_ok_lender s0 a amtD now tOk s1 hdep
  have hlen : (runPool s1 ops).lenders = s1.lenders :=
    runPool_onlyRepays ops s1 hops
  have hl : lookupD (runPool s1 ops).lenders a LenderInfo.zero =
      lookupD s1.lenders a LenderInfo.zero := by rw [hlen]
  have h := withdraw_pays (runPool s1 ops) a amtW tOk hOk
    (by rw [hl]; exact hE0)
    (by rw [hl, hLast]; exact hmono)
    hacc
    (by rw [hl, hLast]; exact hprod)
    (by rw [hl, hLast]; exact hsum)
  rw [hl, hLast] at h
  exact h

/-- C7 witness: lender 7 deposits 100 at accumulator 0, two repays raise the
accumulator to 1e9 in two unequal steps, and a withdrawal of 50 transfers
exactly `50 + 100 * 1e9 / 1e9 = 150`. -/
theorem C7_accrual_additive_witness :
    onlyRepays opsC7 = true ∧
    (LendingPool.withdraw (runPool s1c opsC7) 7 50 true).map Prod.snd =
      Except.ok 150 :=
  ⟨rfl,
   C7_accrual_additive s0c 7 100 0 50 true opsC7 s1c rfl rfl rfl (by decide)
     (by decide) (by decide) (by decide)⟩

/-- C8.  The interest split of `_process_payment`: the interest portion is
`outstanding * (rate_bps / 12) / 10000` (all divisions truncating; the
hypothesis rules out 256-bit wrap of the product), and on the concrete
Active loan with `outstanding = 1000`, `rate_bps = 1200`, a payment of 100
splits into interest 10 and principal 90, leaving `outstanding = 910` with
the status still Active (1). -/
theorem C8_payment_split (o r : ℕ) (h : o * (r / 12) < M256) :
    LoanManager.calculate_interest_portion o r = o * (r / 12) / 10000 ∧
    LoanManager.calculate_interest_portion 1000 1200 = 10 ∧
    (100 : ℕ) - LoanManager.calculate_interest_portion 1000 1200 = 90 ∧
    (LoanManager.make_payment lmA 7 2 100 true true true).map
      (fun t => ((lookupD t.loans 2 LoanManager.Loan.zero).outstanding_balance,
                 (lookupD t.loans 2 LoanManager.Loan.zero).status)) =
      Except.ok (910, 1) := by
  refine ⟨?_, rfl, rfl, rfl⟩
  rw [LoanManager.calculate_interest_portion, wmul_eq h]

/-- C8 witness: the split formula at the documented concrete input. -/
theorem C8_payment_split_witness :
    1000 * (1200 / 12) < M256 ∧
    LoanManager.calculate_interest_portion 1000 1200 = 1000 * (1200 / 12) / 10000 :=
  ⟨by decide, (C8_payment_split 1000 1200 (by decide)).1⟩

/-- C9.  Every successful `_process_payment` writes `total_repaid`,
`payments_made` and `next_payment_due` back with the values read before the
call: no payment accumulates `total_repaid`, increments the payment counter
or advances the due date. -/
theorem C9_process_payment_frame (s : LoanManager.LMState)
    (loan_id payer amount : ℕ) (tOk rOk uOk : Bool) (s1 : LoanManager.LMState)
    (h : LoanManager.process_payment s loan_id payer amount tOk rOk uOk =
      Except.ok s1) :
    (lookupD s1.loans loan_id LoanManager.Loan.zero).total_repaid =
      (lookupD s.loans loan_id LoanManager.Loan.zero).total_repaid ∧
    (lookupD s1.loans loan_id LoanManager.Loan.zero).payments_made =
      (lookupD s.loans loan_id LoanManager.Loan.zero).payments_made ∧
    (lookupD s1.loans loan_id LoanManager.Loan.zero).next_payment_due =
      (lookupD s.loans loan_id LoanManager.Loan.zero).next_payment_due := by
  have ha : amount ≠ 0 := by
    intro h0
    rw [LoanManager.process_payment, if_pos h0] at h
    simp at h
  rw [LoanManager.process_payment, if_neg ha] at h
  try simp only [] at h
  repeat' split at h
  all_goals
    first
      | exact Except.noConfusion h
      | (rw [Except.ok.injEq] at h
         subst h
         rw [lookupD_insertK_self]
         exact ⟨rfl, rfl, rfl⟩)

/-- C9 witness: the frame condition at a successful concrete payment of 100
on the Active loan 2. -/
theorem C9_process_payment_frame_witness :
    LoanManager.process_payment lmA 2 7 100 true true true = Except.ok s9c ∧
    ((lookupD s9c.loans 2 LoanManager.Loan.zero).total_repaid =
      (lookupD lmA.loans 2 LoanManager.Loan.zero).total_repaid ∧
     (lookupD s9c.loans 2 LoanManager.Loan.zero).payments_made =
      (lookupD lmA.loans 2 LoanManager.Loan.zero).payments_made ∧
     (lookupD s9c.loans 2 LoanManager.Loan.zero).next_payment_due =
      (lookupD lmA.loans 2 LoanManager.Loan.zero).next_payment_due) :=
  ⟨rfl, C9_process_payment_frame lmA 2 7 100 true true true s9c rfl⟩

/-- C10.  `set_addresses` performs no caller check (the admin guard is
commented out in the source): for every state and every caller it succeeds
and overwrites exactly the stored `remittance_nft` and `loan_manager`
addresses. -/
theorem C10_set_addresses_unrestricted (s : OracleVerifier.OVState)
    (sender nft lm : ℕ) :
    OracleVerifier.set_addresses s sender nft lm =
      Except.ok { s with remittance_nft := nft, loan_manager := lm } := rfl
